import Mathlib

/-!
Shallow embedding of `src/modules/affinity-extractor/scripts/extract_affinity.py`.

Byte buffers are modelled as `List ℕ` (each element a byte value), Python
strings as lists of Unicode code points (`List ℕ`).  Python exceptions are
modelled with `Except`, machine integers with `ℕ`/`ℤ`, and IEEE-754 doubles
exactly, as rationals together with infinities and NaN.
-/

set_option maxHeartbeats 1000000
set_option maxRecDepth 100000

set_option allowUnsafeReducibility true
attribute [semireducible] Rat.mul Rat.add Rat.sub Rat.inv

/-- Python slice `data[i:j]` for `0 ≤ i ≤ j` (clamping, never raising). -/
def pySlice (data : List ℕ) (i j : ℕ) : List ℕ :=
  (data.drop i).take (j - i)

/-- Does `pattern` occur in `data` at offset `i`, i.e. `data[i:i+len(pattern)] == pattern`? -/
def matchAt (data pattern : List ℕ) (i : ℕ) : Bool :=
  pySlice data i (i + pattern.length) == pattern

/-- Scan offsets `i, i+1, ...` (at most `fuel` of them) for the first match.
Models the C-level substring scan behind Python `bytes.find(pattern, i)`. -/
def pyFindGo (data pattern : List ℕ) : ℕ → ℕ → Option ℕ
  | 0, _ => none
  | fuel + 1, i => if matchAt data pattern i then some i else pyFindGo data pattern fuel (i + 1)

/-- Python `data.find(pattern, start)`; `none` plays the role of `-1`. -/
def pyFind (data pattern : List ℕ) (start : ℕ) : Option ℕ :=
  pyFindGo data pattern (data.length + 1 - start) start

theorem pyFindGo_some {data pattern : List ℕ} {fuel i j : ℕ}
    (h : pyFindGo data pattern fuel i = some j) :
    i ≤ j ∧ j < i + fuel ∧ matchAt data pattern j = true ∧
      ∀ k, i ≤ k → k < j → matchAt data pattern k = false := by
  induction fuel generalizing i with
  | zero => simp [pyFindGo] at h
  | succ fuel ih =>
    rw [pyFindGo] at h
    by_cases hm : matchAt data pattern i = true
    · simp [hm] at h
      subst h
      exact ⟨le_refl _, by omega, hm, fun k hk hk2 => absurd hk2 (by omega)⟩
    · simp [hm] at h
      obtain ⟨h1, h2, h3, h4⟩ := ih h
      refine ⟨by omega, by omega, h3, fun k hk hk2 => ?_⟩
      rcases Nat.eq_or_lt_of_le hk with rfl | hk'
      · simpa using hm
      · exact h4 k hk' hk2

theorem pyFindGo_none {data pattern : List ℕ} {fuel i : ℕ}
    (h : pyFindGo data pattern fuel i = none) :
    ∀ k, i ≤ k → k < i + fuel → matchAt data pattern k = false := by
  induction fuel generalizing i with
  | zero => omega
  | succ fuel ih =>
    rw [pyFindGo] at h
    by_cases hm : matchAt data pattern i = true
    · simp [hm] at h
    · simp [hm] at h
      intro k hk hk2
      rcases Nat.eq_or_lt_of_le hk with rfl | hk'
      · simpa using hm
      · exact ih h k hk' (by omega)

theorem pyFind_some {data pattern : List ℕ} {start j : ℕ}
    (h : pyFind data pattern start = some j) :
    start ≤ j ∧ j ≤ data.length ∧ matchAt data pattern j = true ∧
      ∀ k, start ≤ k → k < j → matchAt data pattern k = false := by
  obtain ⟨h1, h2, h3, h4⟩ := pyFindGo_some h
  exact ⟨h1, by omega, h3, h4⟩

theorem pyFind_none {data pattern : List ℕ} {start : ℕ}
    (h : pyFind data pattern start = none) :
    ∀ k, start ≤ k → k ≤ data.length → matchAt data pattern k = false := by
  intro k hk hk2
  exact pyFindGo_none h k hk (by omega)

/-- The `while True` loop of `find_all`, entered with current search start `pos`.
The loop runs at most `data.length + 1` times (each iteration moves `pos` past the
match just found), so that is the fuel `find_all` passes in. -/
def findAllGo (data pattern : List ℕ) : ℕ → ℕ → List ℕ
  | 0, _ => []
  | fuel + 1, pos =>
    match pyFind data pattern pos with
    | none => []
    | some i => i :: findAllGo data pattern fuel (i + 1)

/-- Models `find_all(data, pattern)`: all occurrence offsets; after a match the scan
resumes at the next byte. -/
def find_all (data pattern : List ℕ) : List ℕ :=
  findAllGo data pattern (data.length + 1) 0

theorem mem_findAllGo {data pattern : List ℕ} {fuel pos j : ℕ}
    (hfuel : data.length + 1 ≤ fuel + pos) :
    j ∈ findAllGo data pattern fuel pos ↔
      pos ≤ j ∧ j ≤ data.length ∧ matchAt data pattern j = true := by
  induction fuel generalizing pos with
  | zero =>
    simp only [findAllGo, List.not_mem_nil, false_iff]
    omega
  | succ fuel ih =>
    rw [findAllGo]
    split
    · next hnone =>
      simp only [List.not_mem_nil, false_iff]
      intro ⟨h1, h2, h3⟩
      exact absurd h3 (by simp [pyFind_none hnone j h1 h2])
    · next i hsome =>
      obtain ⟨h1, h2, h3, h4⟩ := pyFind_some hsome
      simp only [List.mem_cons]
      constructor
      · rintro (rfl | hmem)
        · exact ⟨h1, h2, h3⟩
        · have := (@ih (i + 1) (by omega)).mp hmem
          exact ⟨by omega, this.2.1, this.2.2⟩
      · rintro ⟨hj1, hj2, hj3⟩
        by_cases hji : j = i
        · exact Or.inl hji
        · right
          refine (@ih (i + 1) (by omega)).mpr ⟨?_, hj2, hj3⟩
          by_contra hlt
          exact absurd hj3 (by simp [h4 j hj1 (by omega)])

theorem pairwise_findAllGo {data pattern : List ℕ} {fuel pos : ℕ}
    (hfuel : data.length + 1 ≤ fuel + pos) :
    List.Pairwise (· < ·) (findAllGo data pattern fuel pos) := by
  induction fuel generalizing pos with
  | zero => exact List.Pairwise.nil
  | succ fuel ih =>
    rw [findAllGo]
    split
    · exact List.Pairwise.nil
    · next i hsome =>
      obtain ⟨h1, h2, h3, h4⟩ := pyFind_some hsome
      refine List.Pairwise.cons ?_ (ih (by omega))
      intro j hj
      have := (mem_findAllGo (by omega)).mp hj
      omega

theorem mem_find_all {data pattern : List ℕ} {j : ℕ} :
    j ∈ find_all data pattern ↔ j ≤ data.length ∧ matchAt data pattern j = true := by
  rw [find_all, mem_findAllGo (by omega)]
  exact ⟨fun ⟨_, h2, h3⟩ => ⟨h2, h3⟩, fun ⟨h2, h3⟩ => ⟨Nat.zero_le _, h2, h3⟩⟩

theorem matchAt_le_length {data pattern : List ℕ} {j : ℕ} (hp : pattern ≠ [])
    (h : pySlice data j (j + pattern.length) = pattern) : j ≤ data.length := by
  by_contra hlt
  have hdrop : data.drop j = [] := List.drop_eq_nil_of_le (by omega)
  rw [pySlice, hdrop] at h
  simp at h
  exact hp h

/-- Claim C1: For every buffer `B` and non-empty marker `M`, `find_all B M` is strictly
increasing, an offset is in the result iff `B[off:off+len(M)] == M` there (hence all
occurrences, including overlapping ones, are returned), and the result is empty when
`M` does not occur in `B`. -/
theorem find_all_spec (B M : List ℕ) (hM : M ≠ []) :
    List.Pairwise (· < ·) (find_all B M) ∧
    (∀ off, off ∈ find_all B M ↔ pySlice B off (off + M.length) = M) ∧
    ((∀ off, pySlice B off (off + M.length) ≠ M) → find_all B M = []) := by
  refine ⟨pairwise_findAllGo (by omega), fun off => ?_, fun hno => ?_⟩
  · rw [mem_find_all]
    constructor
    · rintro ⟨-, h⟩
      exact of_decide_eq_true (by simpa [matchAt] using h)
    · intro h
      exact ⟨matchAt_le_length hM h, by simp [matchAt, h]⟩
  · rcases h : find_all B M with _ | ⟨j, rest⟩
    · rfl
    · have hj : j ∈ find_all B M := by rw [h]; exact List.mem_cons_self j rest
      rw [mem_find_all] at hj
      exact absurd (of_decide_eq_true (by simpa [matchAt] using hj.2)) (hno j)

/-- Witness for C1 on the buffer `b"aaa"` with the overlapping marker `b"aa"`:
matches are found at both offsets 0 and 1. -/
theorem find_all_spec_witness :
    List.Pairwise (· < ·) (find_all [97, 97, 97] [97, 97]) ∧
    (1 ∈ find_all [97, 97, 97] [97, 97] ↔ pySlice [97, 97, 97] 1 (1 + 2) = [97, 97]) := by
  have h := find_all_spec [97, 97, 97] [97, 97] (by decide)
  exact ⟨h.1, h.2.1 1⟩

/-- Python `str.isspace` for the code points that can occur here (the Unicode
whitespace set used by `str.strip`). -/
def pyIsSpace (c : ℕ) : Bool :=
  (9 ≤ c && c ≤ 13) || (28 ≤ c && c ≤ 31) || c == 32 || c == 133 || c == 160 ||
  c == 0x1680 || (0x2000 ≤ c && c ≤ 0x200A) || c == 0x2028 || c == 0x2029 ||
  c == 0x202F || c == 0x205F || c == 0x3000

/-- Python `str.strip()`: remove leading and trailing whitespace code points. -/
def pyStrip (s : List ℕ) : List ℕ :=
  ((s.dropWhile pyIsSpace).reverse.dropWhile pyIsSpace).reverse

/-- Python `str.rstrip('\x00')`: remove trailing NUL code points only. -/
def rstripNull (s : List ℕ) : List ℕ :=
  (s.reverse.dropWhile (· == 0)).reverse

/-- Python `bytes.decode('ascii', errors='ignore')`: keep bytes below 128, drop the rest. -/
def asciiIgnore (s : List ℕ) : List ℕ :=
  s.filter (· < 128)

/-- Python `bytes.isalnum()` on a single byte: ASCII digits and letters only. -/
def isAsciiAlnum (b : ℕ) : Bool :=
  (48 ≤ b && b ≤ 57) || (65 ≤ b && b ≤ 90) || (97 ≤ b && b ≤ 122)

/-- Lexicographic comparison of code-point lists; Python string `<`. -/
def lexLt : List ℕ → List ℕ → Bool
  | [], [] => false
  | [], _ :: _ => true
  | _ :: _, [] => false
  | a :: as, b :: bs => if a < b then true else if a = b then lexLt as bs else false

theorem lexLt_irrefl (l : List ℕ) : lexLt l l = false := by
  induction l with
  | nil => rfl
  | cons a as ih => simp [lexLt, ih]

theorem lexLt_trans {a b c : List ℕ} (hab : lexLt a b = true) (hbc : lexLt b c = true) :
    lexLt a c = true := by
  induction a generalizing b c with
  | nil =>
    cases b with
    | nil => simp [lexLt] at hab
    | cons y ys =>
      cases c with
      | nil => simp [lexLt] at hbc
      | cons z zs => rfl
  | cons x xs ih =>
    cases b with
    | nil => simp [lexLt] at hab
    | cons y ys =>
      cases c with
      | nil => simp [lexLt] at hbc
      | cons z zs =>
        rw [lexLt] at hab hbc ⊢
        by_cases h1 : x < y
        · by_cases h2 : y < z
          · simp [show x < z by omega]
          · have h2e : y = z := by
              by_contra hne
              simp [h2, hne] at hbc
            subst h2e
            simp [h1]
        · have h1e : x = y := by
            by_contra hne
            simp [h1, hne] at hab
          subst h1e
          rw [if_neg h1, if_pos rfl] at hab
          by_cases h2 : x < z
          · simp [h2]
          · have h2e : x = z := by
              by_contra hne
              simp [h2, hne] at hbc
            subst h2e
            rw [if_neg h2, if_pos rfl] at hbc ⊢
            exact ih hab hbc

theorem lexLt_connex {a b : List ℕ} (hab : lexLt a b = false) (hba : lexLt b a = false) :
    a = b := by
  induction a generalizing b with
  | nil =>
    cases b with
    | nil => rfl
    | cons y ys => simp [lexLt] at hab
  | cons x xs ih =>
    cases b with
    | nil => simp [lexLt] at hba
    | cons y ys =>
      rw [lexLt] at hab hba
      by_cases h1 : x < y
      · simp [h1] at hab
      · by_cases h2 : y < x
        · simp [h2] at hba
        · have h1e : x = y := by omega
          subst h1e
          rw [if_neg h1, if_pos rfl] at hab
          rw [if_neg h1, if_pos rfl] at hba
          rw [ih hab hba]

/-- Insert into a strictly `lexLt`-sorted list, skipping duplicates.  Together
with `sortLexDedup` this models Python's `sorted(set_of_strings)`. -/
def insertSD (x : List ℕ) : List (List ℕ) → List (List ℕ)
  | [] => [x]
  | y :: ys => if lexLt x y then x :: y :: ys else if x = y then y :: ys else y :: insertSD x ys

/-- Models `sorted(set(l))` for Python strings: the strictly ascending enumeration of
the distinct elements of `l`. -/
def sortLexDedup (l : List (List ℕ)) : List (List ℕ) :=
  l.foldr insertSD []

theorem mem_insertSD {x a : List ℕ} {l : List (List ℕ)} :
    a ∈ insertSD x l ↔ a = x ∨ a ∈ l := by
  induction l with
  | nil => simp [insertSD]
  | cons y ys ih =>
    rw [insertSD]
    split
    · simp
    · split
      · next hxy =>
        subst hxy
        simp only [List.mem_cons]
        tauto
      · simp only [List.mem_cons, ih]
        tauto

theorem pairwise_insertSD {x : List ℕ} {l : List (List ℕ)}
    (h : List.Pairwise (fun a b => lexLt a b = true) l) :
    List.Pairwise (fun a b => lexLt a b = true) (insertSD x l) := by
  induction l with
  | nil => simp [insertSD]
  | cons y ys ih =>
    rw [insertSD]
    rcases h with - | ⟨hy, hys⟩
    split
    · next hxy =>
      refine List.Pairwise.cons ?_ (List.Pairwise.cons hy hys)
      intro b hb
      rcases List.mem_cons.mp hb with rfl | hb'
      · exact hxy
      · exact lexLt_trans hxy (hy b hb')
    · split
      · exact List.Pairwise.cons hy hys
      · next hnlt hne =>
        refine List.Pairwise.cons ?_ (ih hys)
        intro b hb
        rcases mem_insertSD.mp hb with rfl | hb'
        · rcases hlt : lexLt y b with - | -
          · have hxy : lexLt b y = false := by simpa using hnlt
            exact absurd (lexLt_connex hxy hlt) hne
          · rfl
        · exact hy b hb'

theorem mem_sortLexDedup {a : List ℕ} {l : List (List ℕ)} :
    a ∈ sortLexDedup l ↔ a ∈ l := by
  induction l with
  | nil => simp [sortLexDedup]
  | cons y ys ih =>
    simp only [sortLexDedup, List.foldr_cons] at ih ⊢
    rw [mem_insertSD, ih, List.mem_cons]

theorem pairwise_sortLexDedup {l : List (List ℕ)} :
    List.Pairwise (fun a b => lexLt a b = true) (sortLexDedup l) := by
  induction l with
  | nil => exact List.Pairwise.nil
  | cons y ys ih => exact pairwise_insertSD ih

/-- Byte allowed by the backward walk of `extract_layers`:
`data[start:start+1].isalnum() or data[start:start+1] in [b'_', b' ', b'-', b'.']`. -/
def allowedLayerByte (b : ℕ) : Bool :=
  isAsciiAlnum b || b == 95 || b == 32 || b == 45 || b == 46

/-- Python `chr(b).isalnum()` for a byte value `b < 256`: ASCII alphanumerics plus
the Latin-1 letters and numeric characters. -/
def isLatin1Alnum (b : ℕ) : Bool :=
  isAsciiAlnum b || b == 0xAA || b == 0xB2 || b == 0xB3 || b == 0xB5 || b == 0xB9 ||
  b == 0xBA || (0xBC ≤ b && b ≤ 0xBE) || (0xC0 ≤ b && b ≤ 0xD6) ||
  (0xD8 ≤ b && b ≤ 0xF6) || (0xF8 ≤ b && b ≤ 0xFF)

/-- Byte allowed by the backward walk of `extract_fonts`:
`chr(data[start]).isalnum() or chr(data[start]) in '-_'`. -/
def allowedFontByte (b : ℕ) : Bool :=
  isLatin1Alnum b || b == 45 || b == 95

/-- The loop `while start > 0 and allowed(data[start]): start -= 1`, returning the final
`start`.  In context every index probed is in range, so the `getD` default is
never an allowed byte. -/
def backWalk (allowed : ℕ → Bool) (data : List ℕ) : ℕ → ℕ
  | 0 => 0
  | s + 1 => if allowed (data.getD (s + 1) 0) then backWalk allowed data s else s + 1

/-- The marker `b'1CgaT'`. -/
def layerMarker : List ℕ := [49, 67, 103, 97, 84]

/-- Loop body of `extract_layers` for one occurrence `pos`: the candidate name,
or `none` when it is rejected.  (For `pos = 0` Python sets `start = -1` and takes
the empty slice `data[0:0]`; here `pos - 1 = 0` and `pySlice data 1 0` is likewise
empty.) -/
def layerCand (data : List ℕ) (pos : ℕ) : Option (List ℕ) :=
  let start := backWalk allowedLayerByte data (pos - 1)
  let name := pyStrip (asciiIgnore (pySlice data (start + 1) pos))
  if name ≠ [] ∧ 1 < name.length then some name else none

/-- Models `extract_layers(data)`: names before `1CgaT` markers, deduplicated, sorted. -/
def extract_layers (data : List ℕ) : List (List ℕ) :=
  sortLexDedup ((find_all data layerMarker).filterMap (layerCand data))

/-- The marker `b'+ymaF'`. -/
def fontMarker : List ℕ := [43, 121, 109, 97, 70]

/-- Loop body of `extract_fonts` for one occurrence `pos`. -/
def fontCand (data : List ℕ) (pos : ℕ) : Option (List ℕ) :=
  let start := backWalk allowedFontByte data (pos - 1)
  let font := asciiIgnore (pySlice data (start + 1) pos)
  if font ≠ [] then some font else none

/-- Models `extract_fonts(data)`: names before `+ymaF` markers, deduplicated, sorted. -/
def extract_fonts (data : List ℕ) : List (List ℕ) :=
  sortLexDedup ((find_all data fontMarker).filterMap (fontCand data))

/-- Claim C2, counterexample: On the buffer `b"MyLayer1CgaT"` the code does *not*
yield `"MyLayer"`: the walk condition `start > 0` stops at index 0 without
including the first byte `'M'`. -/
theorem extract_layers_myLayer_counterexample :
    [77, 121, 76, 97, 121, 101, 114] ∉
      extract_layers [77, 121, 76, 97, 121, 101, 114, 49, 67, 103, 97, 84] := by
  decide

/-- Claim C2, amended: Running `extract_layers` on `b"MyLayer1CgaT"` yields exactly
the name `"yLayer"`: the backward walk never consumes the byte at offset 0. -/
theorem extract_layers_myLayer_amended :
    extract_layers [77, 121, 76, 97, 121, 101, 114, 49, 67, 103, 97, 84] =
      [[121, 76, 97, 121, 101, 114]] := by
  decide

theorem layerCand_some {data : List ℕ} {pos : ℕ} {s : List ℕ}
    (h : layerCand data pos = some s) :
    s = pyStrip (asciiIgnore
        (pySlice data (backWalk allowedLayerByte data (pos - 1) + 1) pos)) ∧
      1 < s.length := by
  rw [layerCand] at h
  split at h
  · next hcond => cases h; exact ⟨rfl, hcond.2⟩
  · cases h

theorem fontCand_some {data : List ℕ} {pos : ℕ} {s : List ℕ}
    (h : fontCand data pos = some s) :
    s = asciiIgnore
        (pySlice data (backWalk allowedFontByte data (pos - 1) + 1) pos) ∧
      s ≠ [] := by
  rw [fontCand] at h
  split at h
  · next hcond => cases h; exact ⟨rfl, hcond⟩
  · cases h

/-- Claim C7: All layer names have length > 1, all font names are non-empty, and
both result lists are strictly sorted in lexicographic order (hence duplicate-free). -/
theorem extract_layers_fonts_invariants (data : List ℕ) :
    (∀ s ∈ extract_layers data, 1 < s.length) ∧
    (∀ s ∈ extract_fonts data, s ≠ []) ∧
    List.Pairwise (fun a b => lexLt a b = true) (extract_layers data) ∧
    List.Pairwise (fun a b => lexLt a b = true) (extract_fonts data) := by
  refine ⟨fun s hs => ?_, fun s hs => ?_, pairwise_sortLexDedup, pairwise_sortLexDedup⟩
  · rw [extract_layers, mem_sortLexDedup, List.mem_filterMap] at hs
    obtain ⟨pos, -, hcand⟩ := hs
    exact (layerCand_some hcand).2
  · rw [extract_fonts, mem_sortLexDedup, List.mem_filterMap] at hs
    obtain ⟨pos, -, hcand⟩ := hs
    exact (fontCand_some hcand).2

/-- Witness for C7 on `b"xAb1CgaT/Arial+ymaF"`: the extracted layer name `"Ab"`
has length 2 > 1 and the extracted font name `"Arial"` is non-empty. -/
theorem extract_layers_fonts_invariants_witness :
    1 < [65, 98].length ∧ ([65, 114, 105, 97, 108] : List ℕ) ≠ [] := by
  have h := extract_layers_fonts_invariants
    [120, 65, 98, 49, 67, 103, 97, 84, 47, 65, 114, 105, 97, 108, 43, 121, 109, 97, 70]
  exact ⟨h.1 [65, 98] (by decide), h.2.1 [65, 114, 105, 97, 108] (by decide)⟩

/-- Claim C9: Every extracted layer or font name is built from a slice of the buffer
that starts at index ≥ 1: the walk condition `start > 0` means the byte at index 0
is never part of a candidate, even when it is an allowed character. -/
theorem first_byte_never_extracted (data : List ℕ) :
    (∀ name ∈ extract_layers data,
      ∃ i j, 1 ≤ i ∧ name = pyStrip (asciiIgnore (pySlice data i j))) ∧
    (∀ f ∈ extract_fonts data,
      ∃ i j, 1 ≤ i ∧ f = asciiIgnore (pySlice data i j)) := by
  constructor
  · intro name hname
    rw [extract_layers, mem_sortLexDedup, List.mem_filterMap] at hname
    obtain ⟨pos, -, hcand⟩ := hname
    exact ⟨backWalk allowedLayerByte data (pos - 1) + 1, pos, by omega,
      (layerCand_some hcand).1⟩
  · intro f hf
    rw [extract_fonts, mem_sortLexDedup, List.mem_filterMap] at hf
    obtain ⟨pos, -, hcand⟩ := hf
    exact ⟨backWalk allowedFontByte data (pos - 1) + 1, pos, by omega,
      (fontCand_some hcand).1⟩

/-- Witness for C9 on `b"xAb1CgaT/Arial+ymaF"`: the extracted names come from
slices starting at index ≥ 1. -/
theorem first_byte_never_extracted_witness :
    ∃ i j, 1 ≤ i ∧ ([65, 98] : List ℕ) = pyStrip (asciiIgnore
      (pySlice [120, 65, 98, 49, 67, 103, 97, 84, 47, 65, 114, 105, 97, 108,
        43, 121, 109, 97, 70] i j)) := by
  exact (first_byte_never_extracted _).1 [65, 98] (by decide)

/-- Fueled worker for `utf8DecodeIgnore`. -/
def utf8Go : ℕ → List ℕ → List ℕ
  | 0, _ => []
  | _, [] => []
  | fuel + 1, b :: rest =>
    if b < 0x80 then b :: utf8Go fuel rest
    else if 0xC2 ≤ b && b ≤ 0xDF then
      match rest with
      | [] => []
      | c1 :: rest1 =>
        if 0x80 ≤ c1 && c1 ≤ 0xBF then
          ((b - 0xC0) * 64 + (c1 - 0x80)) :: utf8Go fuel rest1
        else utf8Go fuel rest
    else if 0xE0 ≤ b && b ≤ 0xEF then
      match rest with
      | [] => []
      | c1 :: rest1 =>
        if (if b == 0xE0 then 0xA0 ≤ c1 && c1 ≤ 0xBF
            else if b == 0xED then 0x80 ≤ c1 && c1 ≤ 0x9F
            else 0x80 ≤ c1 && c1 ≤ 0xBF) then
          match rest1 with
          | [] => []
          | c2 :: rest2 =>
            if 0x80 ≤ c2 && c2 ≤ 0xBF then
              (((b - 0xE0) * 64 + (c1 - 0x80)) * 64 + (c2 - 0x80)) :: utf8Go fuel rest2
            else utf8Go fuel rest1
        else utf8Go fuel rest
    else if 0xF0 ≤ b && b ≤ 0xF4 then
      match rest with
      | [] => []
      | c1 :: rest1 =>
        if (if b == 0xF0 then 0x90 ≤ c1 && c1 ≤ 0xBF
            else if b == 0xF4 then 0x80 ≤ c1 && c1 ≤ 0x8F
            else 0x80 ≤ c1 && c1 ≤ 0xBF) then
          match rest1 with
          | [] => []
          | c2 :: rest2 =>
            if 0x80 ≤ c2 && c2 ≤ 0xBF then
              match rest2 with
              | [] => []
              | c3 :: rest3 =>
                if 0x80 ≤ c3 && c3 ≤ 0xBF then
                  ((((b - 0xF0) * 64 + (c1 - 0x80)) * 64 + (c2 - 0x80)) * 64 + (c3 - 0x80)) ::
                    utf8Go fuel rest3
                else utf8Go fuel rest2
            else utf8Go fuel rest1
        else utf8Go fuel rest
    else utf8Go fuel rest

/-- Python `bytes.decode('utf-8', errors='ignore')`: standard UTF-8 decoding where
an invalid sequence is dropped (the lead byte together with the valid continuation
bytes seen so far — CPython's maximal-subpart behaviour) and decoding resumes at
the offending byte.  A truncated sequence at the end of the input is dropped.
Each step of `utf8Go` consumes at least one byte, so `s.length` is enough fuel. -/
def utf8DecodeIgnore (s : List ℕ) : List ℕ :=
  utf8Go s.length s

/-- Lowercase mapping runs `(a, b, step, dp, dn)` from CPython 3.11's Unicode
tables (Unicode 14.0): a code point `c` with `a ≤ c ≤ b` and `(c - a) % step = 0`
lowercases to `c + dp - dn`.  Sorted by `a`; together the runs cover exactly the
code points whose `str.lower()` differs from the identity, except U+0130 (the one
mapping to two code points) and the contextual U+03A3, both handled in
`pyLowerChar`. -/
def lowerRuns : List (ℕ × ℕ × ℕ × ℕ × ℕ) :=
  [(65, 90, 1, 32, 0), (192, 214, 1, 32, 0), (216, 222, 1, 32, 0), (256, 302, 2, 1, 0),
   (306, 310, 2, 1, 0), (313, 327, 2, 1, 0), (330, 374, 2, 1, 0), (376, 376, 1, 0, 121),
   (377, 381, 2, 1, 0), (385, 385, 1, 210, 0), (386, 388, 2, 1, 0), (390, 390, 1, 206, 0),
   (391, 391, 1, 1, 0), (393, 394, 1, 205, 0), (395, 395, 1, 1, 0), (398, 398, 1, 79, 0),
   (399, 399, 1, 202, 0), (400, 400, 1, 203, 0), (401, 401, 1, 1, 0), (403, 403, 1, 205, 0),
   (404, 404, 1, 207, 0), (406, 406, 1, 211, 0), (407, 407, 1, 209, 0), (408, 408, 1, 1, 0),
   (412, 412, 1, 211, 0), (413, 413, 1, 213, 0), (415, 415, 1, 214, 0), (416, 420, 2, 1, 0),
   (422, 422, 1, 218, 0), (423, 423, 1, 1, 0), (425, 425, 1, 218, 0), (428, 428, 1, 1, 0),
   (430, 430, 1, 218, 0), (431, 431, 1, 1, 0), (433, 434, 1, 217, 0), (435, 437, 2, 1, 0),
   (439, 439, 1, 219, 0), (440, 444, 4, 1, 0), (452, 452, 1, 2, 0), (453, 453, 1, 1, 0),
   (455, 455, 1, 2, 0), (456, 456, 1, 1, 0), (458, 458, 1, 2, 0), (459, 475, 2, 1, 0),
   (478, 494, 2, 1, 0), (497, 497, 1, 2, 0), (498, 500, 2, 1, 0), (502, 502, 1, 0, 97),
   (503, 503, 1, 0, 56), (504, 542, 2, 1, 0), (544, 544, 1, 0, 130), (546, 562, 2, 1, 0),
   (570, 570, 1, 10795, 0), (571, 571, 1, 1, 0), (573, 573, 1, 0, 163), (574, 574, 1, 10792, 0),
   (577, 577, 1, 1, 0), (579, 579, 1, 0, 195), (580, 580, 1, 69, 0), (581, 581, 1, 71, 0),
   (582, 590, 2, 1, 0), (880, 882, 2, 1, 0), (886, 886, 1, 1, 0), (895, 895, 1, 116, 0),
   (902, 902, 1, 38, 0), (904, 906, 1, 37, 0), (908, 908, 1, 64, 0), (910, 911, 1, 63, 0),
   (913, 929, 1, 32, 0), (932, 939, 1, 32, 0), (975, 975, 1, 8, 0), (984, 1006, 2, 1, 0),
   (1012, 1012, 1, 0, 60), (1015, 1015, 1, 1, 0), (1017, 1017, 1, 0, 7), (1018, 1018, 1, 1, 0),
   (1021, 1023, 1, 0, 130), (1024, 1039, 1, 80, 0), (1040, 1071, 1, 32, 0),
   (1120, 1152, 2, 1, 0), (1162, 1214, 2, 1, 0), (1216, 1216, 1, 15, 0), (1217, 1229, 2, 1, 0),
   (1232, 1326, 2, 1, 0), (1329, 1366, 1, 48, 0), (4256, 4293, 1, 7264, 0),
   (4295, 4301, 6, 7264, 0), (5024, 5103, 1, 38864, 0), (5104, 5109, 1, 8, 0),
   (7312, 7354, 1, 0, 3008), (7357, 7359, 1, 0, 3008), (7680, 7828, 2, 1, 0),
   (7838, 7838, 1, 0, 7615), (7840, 7934, 2, 1, 0), (7944, 7951, 1, 0, 8), (7960, 7965, 1, 0, 8),
   (7976, 7983, 1, 0, 8), (7992, 7999, 1, 0, 8), (8008, 8013, 1, 0, 8), (8025, 8031, 2, 0, 8),
   (8040, 8047, 1, 0, 8), (8072, 8079, 1, 0, 8), (8088, 8095, 1, 0, 8), (8104, 8111, 1, 0, 8),
   (8120, 8121, 1, 0, 8), (8122, 8123, 1, 0, 74), (8124, 8124, 1, 0, 9), (8136, 8139, 1, 0, 86),
   (8140, 8140, 1, 0, 9), (8152, 8153, 1, 0, 8), (8154, 8155, 1, 0, 100), (8168, 8169, 1, 0, 8),
   (8170, 8171, 1, 0, 112), (8172, 8172, 1, 0, 7), (8184, 8185, 1, 0, 128),
   (8186, 8187, 1, 0, 126), (8188, 8188, 1, 0, 9), (8486, 8486, 1, 0, 7517),
   (8490, 8490, 1, 0, 8383), (8491, 8491, 1, 0, 8262), (8498, 8498, 1, 28, 0),
   (8544, 8559, 1, 16, 0), (8579, 8579, 1, 1, 0), (9398, 9423, 1, 26, 0),
   (11264, 11311, 1, 48, 0), (11360, 11360, 1, 1, 0), (11362, 11362, 1, 0, 10743),
   (11363, 11363, 1, 0, 3814), (11364, 11364, 1, 0, 10727), (11367, 11371, 2, 1, 0),
   (11373, 11373, 1, 0, 10780), (11374, 11374, 1, 0, 10749), (11375, 11375, 1, 0, 10783),
   (11376, 11376, 1, 0, 10782), (11378, 11381, 3, 1, 0), (11390, 11391, 1, 0, 10815),
   (11392, 11490, 2, 1, 0), (11499, 11501, 2, 1, 0), (11506, 42560, 31054, 1, 0),
   (42562, 42604, 2, 1, 0), (42624, 42650, 2, 1, 0), (42786, 42798, 2, 1, 0),
   (42802, 42862, 2, 1, 0), (42873, 42875, 2, 1, 0), (42877, 42877, 1, 0, 35332),
   (42878, 42886, 2, 1, 0), (42891, 42891, 1, 1, 0), (42893, 42893, 1, 0, 42280),
   (42896, 42898, 2, 1, 0), (42902, 42920, 2, 1, 0), (42922, 42922, 1, 0, 42308),
   (42923, 42923, 1, 0, 42319), (42924, 42924, 1, 0, 42315), (42925, 42925, 1, 0, 42305),
   (42926, 42926, 1, 0, 42308), (42928, 42928, 1, 0, 42258), (42929, 42929, 1, 0, 42282),
   (42930, 42930, 1, 0, 42261), (42931, 42931, 1, 928, 0), (42932, 42946, 2, 1, 0),
   (42948, 42948, 1, 0, 48), (42949, 42949, 1, 0, 42307), (42950, 42950, 1, 0, 35384),
   (42951, 42953, 2, 1, 0), (42960, 42966, 6, 1, 0), (42968, 42997, 29, 1, 0),
   (65313, 65338, 1, 32, 0), (66560, 66599, 1, 40, 0), (66736, 66771, 1, 40, 0),
   (66928, 66938, 1, 39, 0), (66940, 66954, 1, 39, 0), (66956, 66962, 1, 39, 0),
   (66964, 66965, 1, 39, 0), (68736, 68786, 1, 64, 0), (71840, 71871, 1, 32, 0),
   (93760, 93791, 1, 32, 0), (125184, 125217, 1, 34, 0)]

/-- Membership in a list of inclusive code-point ranges sorted by start. -/
def inRanges (c : ℕ) : List (ℕ × ℕ) → Bool
  | [] => false
  | (a, b) :: rest => if c < a then false else if c ≤ b then true else inRanges c rest

/-- The Unicode `Cased` property (CPython's `_PyUnicode_IsCased`), as ranges. -/
def casedRanges : List (ℕ × ℕ) :=
  [(65, 90), (97, 122), (170, 170), (181, 181), (186, 186), (192, 214), (216, 246), (248, 442),
   (444, 447), (452, 659), (661, 687), (880, 883), (886, 887), (891, 893), (895, 895),
   (902, 902), (904, 906), (908, 908), (910, 929), (931, 1013), (1015, 1153), (1162, 1327),
   (1329, 1366), (1376, 1416), (4256, 4293), (4295, 4295), (4301, 4301), (4304, 4346),
   (4349, 4351), (5024, 5109), (5112, 5117), (7296, 7304), (7312, 7354), (7357, 7359),
   (7424, 7467), (7531, 7543), (7545, 7578), (7680, 7957), (7960, 7965), (7968, 8005),
   (8008, 8013), (8016, 8023), (8025, 8025), (8027, 8027), (8029, 8029), (8031, 8061),
   (8064, 8116), (8118, 8124), (8126, 8126), (8130, 8132), (8134, 8140), (8144, 8147),
   (8150, 8155), (8160, 8172), (8178, 8180), (8182, 8188), (8450, 8450), (8455, 8455),
   (8458, 8467), (8469, 8469), (8473, 8477), (8484, 8484), (8486, 8486), (8488, 8488),
   (8490, 8493), (8495, 8500), (8505, 8505), (8508, 8511), (8517, 8521), (8526, 8526),
   (8544, 8575), (8579, 8580), (9398, 9449), (11264, 11387), (11390, 11492), (11499, 11502),
   (11506, 11507), (11520, 11557), (11559, 11559), (11565, 11565), (42560, 42605),
   (42624, 42651), (42786, 42863), (42865, 42887), (42891, 42894), (42896, 42954),
   (42960, 42961), (42963, 42963), (42965, 42969), (42997, 42998), (43002, 43002),
   (43824, 43866), (43872, 43880), (43888, 43967), (64256, 64262), (64275, 64279),
   (65313, 65338), (65345, 65370), (66560, 66639), (66736, 66771), (66776, 66811),
   (66928, 66938), (66940, 66954), (66956, 66962), (66964, 66965), (66967, 66977),
   (66979, 66993), (66995, 67001), (67003, 67004), (68736, 68786), (68800, 68850),
   (71840, 71903), (93760, 93823), (119808, 119892), (119894, 119964), (119966, 119967),
   (119970, 119970), (119973, 119974), (119977, 119980), (119982, 119993), (119995, 119995),
   (119997, 120003), (120005, 120069), (120071, 120074), (120077, 120084), (120086, 120092),
   (120094, 120121), (120123, 120126), (120128, 120132), (120134, 120134), (120138, 120144),
   (120146, 120485), (120488, 120512), (120514, 120538), (120540, 120570), (120572, 120596),
   (120598, 120628), (120630, 120654), (120656, 120686), (120688, 120712), (120714, 120744),
   (120746, 120770), (120772, 120779), (122624, 122633), (122635, 122654), (125184, 125251),
   (127280, 127305), (127312, 127337), (127344, 127369)]

/-- The Unicode `Case_Ignorable` property (CPython's `_PyUnicode_IsCaseIgnorable`),
as ranges. -/
def caseIgnorableRanges : List (ℕ × ℕ) :=
  [(39, 39), (46, 46), (58, 58), (94, 94), (96, 96), (168, 168), (173, 173), (175, 175),
   (180, 180), (183, 184), (688, 879), (884, 885), (890, 890), (900, 901), (903, 903),
   (1155, 1161), (1369, 1369), (1375, 1375), (1425, 1469), (1471, 1471), (1473, 1474),
   (1476, 1477), (1479, 1479), (1524, 1524), (1536, 1541), (1552, 1562), (1564, 1564),
   (1600, 1600), (1611, 1631), (1648, 1648), (1750, 1757), (1759, 1768), (1770, 1773),
   (1807, 1807), (1809, 1809), (1840, 1866), (1958, 1968), (2027, 2037), (2042, 2042),
   (2045, 2045), (2070, 2093), (2137, 2139), (2184, 2184), (2192, 2193), (2200, 2207),
   (2249, 2306), (2362, 2362), (2364, 2364), (2369, 2376), (2381, 2381), (2385, 2391),
   (2402, 2403), (2417, 2417), (2433, 2433), (2492, 2492), (2497, 2500), (2509, 2509),
   (2530, 2531), (2558, 2558), (2561, 2562), (2620, 2620), (2625, 2626), (2631, 2632),
   (2635, 2637), (2641, 2641), (2672, 2673), (2677, 2677), (2689, 2690), (2748, 2748),
   (2753, 2757), (2759, 2760), (2765, 2765), (2786, 2787), (2810, 2815), (2817, 2817),
   (2876, 2876), (2879, 2879), (2881, 2884), (2893, 2893), (2901, 2902), (2914, 2915),
   (2946, 2946), (3008, 3008), (3021, 3021), (3072, 3072), (3076, 3076), (3132, 3132),
   (3134, 3136), (3142, 3144), (3146, 3149), (3157, 3158), (3170, 3171), (3201, 3201),
   (3260, 3260), (3263, 3263), (3270, 3270), (3276, 3277), (3298, 3299), (3328, 3329),
   (3387, 3388), (3393, 3396), (3405, 3405), (3426, 3427), (3457, 3457), (3530, 3530),
   (3538, 3540), (3542, 3542), (3633, 3633), (3636, 3642), (3654, 3662), (3761, 3761),
   (3764, 3772), (3782, 3782), (3784, 3789), (3864, 3865), (3893, 3893), (3895, 3895),
   (3897, 3897), (3953, 3966), (3968, 3972), (3974, 3975), (3981, 3991), (3993, 4028),
   (4038, 4038), (4141, 4144), (4146, 4151), (4153, 4154), (4157, 4158), (4184, 4185),
   (4190, 4192), (4209, 4212), (4226, 4226), (4229, 4230), (4237, 4237), (4253, 4253),
   (4348, 4348), (4957, 4959), (5906, 5908), (5938, 5939), (5970, 5971), (6002, 6003),
   (6068, 6069), (6071, 6077), (6086, 6086), (6089, 6099), (6103, 6103), (6109, 6109),
   (6155, 6159), (6211, 6211), (6277, 6278), (6313, 6313), (6432, 6434), (6439, 6440),
   (6450, 6450), (6457, 6459), (6679, 6680), (6683, 6683), (6742, 6742), (6744, 6750),
   (6752, 6752), (6754, 6754), (6757, 6764), (6771, 6780), (6783, 6783), (6823, 6823),
   (6832, 6862), (6912, 6915), (6964, 6964), (6966, 6970), (6972, 6972), (6978, 6978),
   (7019, 7027), (7040, 7041), (7074, 7077), (7080, 7081), (7083, 7085), (7142, 7142),
   (7144, 7145), (7149, 7149), (7151, 7153), (7212, 7219), (7222, 7223), (7288, 7293),
   (7376, 7378), (7380, 7392), (7394, 7400), (7405, 7405), (7412, 7412), (7416, 7417),
   (7468, 7530), (7544, 7544), (7579, 7679), (8125, 8125), (8127, 8129), (8141, 8143),
   (8157, 8159), (8173, 8175), (8189, 8190), (8203, 8207), (8216, 8217), (8228, 8228),
   (8231, 8231), (8234, 8238), (8288, 8292), (8294, 8303), (8305, 8305), (8319, 8319),
   (8336, 8348), (8400, 8432), (11388, 11389), (11503, 11505), (11631, 11631), (11647, 11647),
   (11744, 11775), (11823, 11823), (12293, 12293), (12330, 12333), (12337, 12341),
   (12347, 12347), (12441, 12446), (12540, 12542), (40981, 40981), (42232, 42237),
   (42508, 42508), (42607, 42610), (42612, 42621), (42623, 42623), (42652, 42655),
   (42736, 42737), (42752, 42785), (42864, 42864), (42888, 42890), (42994, 42996),
   (43000, 43001), (43010, 43010), (43014, 43014), (43019, 43019), (43045, 43046),
   (43052, 43052), (43204, 43205), (43232, 43249), (43263, 43263), (43302, 43309),
   (43335, 43345), (43392, 43394), (43443, 43443), (43446, 43449), (43452, 43453),
   (43471, 43471), (43493, 43494), (43561, 43566), (43569, 43570), (43573, 43574),
   (43587, 43587), (43596, 43596), (43632, 43632), (43644, 43644), (43696, 43696),
   (43698, 43700), (43703, 43704), (43710, 43711), (43713, 43713), (43741, 43741),
   (43756, 43757), (43763, 43764), (43766, 43766), (43867, 43871), (43881, 43883),
   (44005, 44005), (44008, 44008), (44013, 44013), (64286, 64286), (64434, 64450),
   (65024, 65039), (65043, 65043), (65056, 65071), (65106, 65106), (65109, 65109),
   (65279, 65279), (65287, 65287), (65294, 65294), (65306, 65306), (65342, 65342),
   (65344, 65344), (65392, 65392), (65438, 65439), (65507, 65507), (65529, 65531),
   (66045, 66045), (66272, 66272), (66422, 66426), (67456, 67461), (67463, 67504),
   (67506, 67514), (68097, 68099), (68101, 68102), (68108, 68111), (68152, 68154),
   (68159, 68159), (68325, 68326), (68900, 68903), (69291, 69292), (69446, 69456),
   (69506, 69509), (69633, 69633), (69688, 69702), (69744, 69744), (69747, 69748),
   (69759, 69761), (69811, 69814), (69817, 69818), (69821, 69821), (69826, 69826),
   (69837, 69837), (69888, 69890), (69927, 69931), (69933, 69940), (70003, 70003),
   (70016, 70017), (70070, 70078), (70089, 70092), (70095, 70095), (70191, 70193),
   (70196, 70196), (70198, 70199), (70206, 70206), (70367, 70367), (70371, 70378),
   (70400, 70401), (70459, 70460), (70464, 70464), (70502, 70508), (70512, 70516),
   (70712, 70719), (70722, 70724), (70726, 70726), (70750, 70750), (70835, 70840),
   (70842, 70842), (70847, 70848), (70850, 70851), (71090, 71093), (71100, 71101),
   (71103, 71104), (71132, 71133), (71219, 71226), (71229, 71229), (71231, 71232),
   (71339, 71339), (71341, 71341), (71344, 71349), (71351, 71351), (71453, 71455),
   (71458, 71461), (71463, 71467), (71727, 71735), (71737, 71738), (71995, 71996),
   (71998, 71998), (72003, 72003), (72148, 72151), (72154, 72155), (72160, 72160),
   (72193, 72202), (72243, 72248), (72251, 72254), (72263, 72263), (72273, 72278),
   (72281, 72283), (72330, 72342), (72344, 72345), (72752, 72758), (72760, 72765),
   (72767, 72767), (72850, 72871), (72874, 72880), (72882, 72883), (72885, 72886),
   (73009, 73014), (73018, 73018), (73020, 73021), (73023, 73029), (73031, 73031),
   (73104, 73105), (73109, 73109), (73111, 73111), (73459, 73460), (78896, 78904),
   (92912, 92916), (92976, 92982), (92992, 92995), (94031, 94031), (94095, 94111),
   (94176, 94177), (94179, 94180), (110576, 110579), (110581, 110587), (110589, 110590),
   (113821, 113822), (113824, 113827), (118528, 118573), (118576, 118598), (119143, 119145),
   (119155, 119170), (119173, 119179), (119210, 119213), (119362, 119364), (121344, 121398),
   (121403, 121452), (121461, 121461), (121476, 121476), (121499, 121503), (121505, 121519),
   (122880, 122886), (122888, 122904), (122907, 122913), (122915, 122916), (122918, 122922),
   (123184, 123197), (123566, 123566), (123628, 123631), (125136, 125142), (125252, 125259),
   (127995, 127999), (917505, 917505), (917536, 917631), (917760, 917999)]

/-- Lookup of a code point in `lowerRuns` (sorted by start, so the scan stops at
the first run starting beyond `c`); identity when no run applies. -/
def lowerLookup (c : ℕ) : List (ℕ × ℕ × ℕ × ℕ × ℕ) → ℕ
  | [] => c
  | (a, b, step, dp, dn) :: rest =>
    if c < a then c
    else if c ≤ b && (c - a) % step == 0 then c + dp - dn
    else lowerLookup c rest

/-- CPython's `handle_capital_sigma`: Σ lowercases to final `ς` when the nearest
non-case-ignorable code point before it exists and is cased, and the nearest
non-case-ignorable code point after it (if any) is not cased.  `before` is the
reversed prefix of the string, `after` its suffix. -/
def finalSigma (before after : List ℕ) : Bool :=
  (match before.dropWhile (fun c => inRanges c caseIgnorableRanges) with
   | p :: _ => inRanges p casedRanges
   | [] => false) &&
  !(match after.dropWhile (fun c => inRanges c caseIgnorableRanges) with
    | n :: _ => inRanges n casedRanges
    | [] => false)

/-- Python `str.lower()` of one code point in context: the contextual Σ rule, the
two-code-point mapping of U+0130, and the full per-code-point table otherwise. -/
def pyLowerChar (before : List ℕ) (c : ℕ) (after : List ℕ) : List ℕ :=
  if c = 0x3A3 then [if finalSigma before after then 0x3C2 else 0x3C3]
  else if c = 0x130 then [0x69, 0x307]
  else [lowerLookup c lowerRuns]

/-- Worker for `pyLower`, carrying the reversed prefix as Σ-context. -/
def pyLowerGo (before : List ℕ) : List ℕ → List ℕ
  | [] => []
  | c :: rest => pyLowerChar before c rest ++ pyLowerGo (c :: before) rest

/-- Python `str.lower()`. -/
def pyLower (s : List ℕ) : List ℕ :=
  pyLowerGo [] s

/-- Python substring test `needle in hay`. -/
def isSubstr (needle hay : List ℕ) : Bool :=
  (List.range (hay.length + 1)).any (fun i => pySlice hay i (i + needle.length) == needle)

/-- The denylist `['siehe', 'voir', 'vedi', 'consultar', 'ver ', 'endnotes']`. -/
def denyTokens : List (List ℕ) :=
  [[115, 105, 101, 104, 101], [118, 111, 105, 114], [118, 101, 100, 105],
   [99, 111, 110, 115, 117, 108, 116, 97, 114], [118, 101, 114, 32],
   [101, 110, 100, 110, 111, 116, 101, 115]]

/-- Models `any(x in s for x in [...])` over the denylist. -/
def containsAnyDeny (s : List ℕ) : Bool :=
  denyTokens.any (fun t => isSubstr t s)

/-- Models `struct.unpack('<I', data[i:i+4])[0]`; `none` models the `struct.error` raised
when fewer than 4 bytes are available. -/
def le32At (data : List ℕ) (i : ℕ) : Option ℕ :=
  match pySlice data i (i + 4) with
  | [b0, b1, b2, b3] => some (b0 + 256 * b1 + 65536 * b2 + 16777216 * b3)
  | _ => none

/-- The marker `b'+8ftU'`. -/
def textMarker : List ℕ := [43, 56, 102, 116, 85]

/-- Models `data[pos+9:pos+9+len].decode('utf-8', errors='ignore').rstrip('\x00')`. -/
def textStr (data : List ℕ) (pos len : ℕ) : List ℕ :=
  rstripNull (utf8DecodeIgnore (pySlice data (pos + 9) (pos + 9 + len)))

/-- Loop body of `extract_text` for one occurrence `pos` (the content of the
`try` block): `.error` models an uncaught-within-the-body exception, `.ok none`
an occurrence filtered out by the guards, `.ok (some t)` a string added to the set. -/
def textOcc (data : List ℕ) (pos : ℕ) : Except Unit (Option (List ℕ)) :=
  match le32At data (pos + 5) with
  | none => .error ()
  | some len =>
    .ok (if 0 < len ∧ len < 500 then
      if textStr data pos len ≠ [] ∧ 0 < (pyStrip (textStr data pos len)).length then
        if containsAnyDeny (pyLower (textStr data pos len)) = false then
          some (pyStrip (textStr data pos len))
        else none
      else none
    else none)

/-- The net contribution of one text occurrence after the `except: pass`. -/
def textCandOpt (data : List ℕ) (pos : ℕ) : Option (List ℕ) :=
  match textOcc data pos with
  | .ok (some t) => some t
  | _ => none

/-- The `for pos in positions` loop of `extract_text` with its `try/except: pass`,
collecting the strings added to the set. -/
def textLoop (data : List ℕ) : List ℕ → List (List ℕ)
  | [] => []
  | p :: ps =>
    match textOcc data p with
    | .ok (some t) => t :: textLoop data ps
    | _ => textLoop data ps

/-- Models `extract_text(data)`: length-prefixed strings after `+8ftU` markers,
denylist-filtered, deduplicated, sorted. -/
def extract_text (data : List ℕ) : List (List ℕ) :=
  sortLexDedup (textLoop data (find_all data textMarker))

theorem textLoop_eq_filterMap (data : List ℕ) (ps : List ℕ) :
    textLoop data ps = ps.filterMap (textCandOpt data) := by
  induction ps with
  | nil => rfl
  | cons p ps ih =>
    rw [textLoop, List.filterMap_cons, textCandOpt]
    match textOcc data p with
    | .ok (some t) => simpa using ih
    | .ok none => simpa using ih
    | .error e => simpa using ih

theorem textOcc_mem_extract_text {data : List ℕ} {pos : ℕ} {t : List ℕ}
    (hpos : pos ∈ find_all data textMarker)
    (hocc : textOcc data pos = Except.ok (some t)) :
    t ∈ extract_text data := by
  rw [extract_text, mem_sortLexDedup, textLoop_eq_filterMap, List.mem_filterMap]
  exact ⟨pos, hpos, by rw [textCandOpt, hocc]⟩

/-- Claim C4, counterexample: Buffer `b'+8ftU' + (7).to_bytes(4,'little') + b"Denver "`:
the declared length 7 is valid, the decoded, null-stripped, *trimmed* string is
`"Denver"`, whose lowercase form contains no denylist token — so the claim as stated
says it is included — yet the code excludes it (`'ver '` matches the *untrimmed*
string `"Denver "`), and `extract_text` returns the empty list. -/
theorem extract_text_filter_counterexample :
    le32At [43, 56, 102, 116, 85, 7, 0, 0, 0, 68, 101, 110, 118, 101, 114, 32] 5 = some 7 ∧
    (0 < 7 ∧ 7 < 500) ∧
    pyStrip (textStr [43, 56, 102, 116, 85, 7, 0, 0, 0, 68, 101, 110, 118, 101, 114, 32] 0 7) =
      [68, 101, 110, 118, 101, 114] ∧
    containsAnyDeny (pyLower
      (pyStrip (textStr [43, 56, 102, 116, 85, 7, 0, 0, 0, 68, 101, 110, 118, 101, 114, 32] 0 7)))
      = false ∧
    extract_text [43, 56, 102, 116, 85, 7, 0, 0, 0, 68, 101, 110, 118, 101, 114, 32] = [] := by
  decide

/-- Claim C4, amended: A text occurrence whose 4-byte little-endian length is not
strictly between 0 and 500 is discarded; for a valid length, the denylist check is
applied to the lowercase form of the *null-stripped, untrimmed* string: if it
contains a token the occurrence contributes nothing, otherwise the trimmed string
is added (and so appears in `extract_text`). -/
theorem extract_text_filter_spec (data : List ℕ) (pos len : ℕ)
    (hlen : le32At data (pos + 5) = some len) :
    (¬(0 < len ∧ len < 500) → textOcc data pos = Except.ok none) ∧
    ((0 < len ∧ len < 500) →
      (containsAnyDeny (pyLower (textStr data pos len)) = true →
        textOcc data pos = Except.ok none) ∧
      (textStr data pos len ≠ [] → 0 < (pyStrip (textStr data pos len)).length →
        containsAnyDeny (pyLower (textStr data pos len)) = false →
        textOcc data pos = Except.ok (some (pyStrip (textStr data pos len))) ∧
        (pos ∈ find_all data textMarker →
          pyStrip (textStr data pos len) ∈ extract_text data))) := by
  refine ⟨fun hrange => ?_, fun hrange => ⟨fun hdeny => ?_, fun hne hstrip hdeny => ?_⟩⟩
  · simp only [textOcc, hlen]
    rw [if_neg hrange]
  · simp only [textOcc, hlen]
    rw [if_pos hrange]
    split
    · rw [if_neg (by simp [hdeny])]
    · rfl
  · have hocc : textOcc data pos = Except.ok (some (pyStrip (textStr data pos len))) := by
      simp only [textOcc, hlen]
      rw [if_pos hrange, if_pos ⟨hne, hstrip⟩, if_pos hdeny]
    exact ⟨hocc, fun hpos => textOcc_mem_extract_text hpos hocc⟩

/-- Witness for C4 on `b'+8ftU' + (11).to_bytes(4,'little') + b"Hello World"` (the
string is included), on `b'+8ftU' + (13).to_bytes(4,'little') + b"siehe seite 5"`
(the denylist token `'siehe'` excludes the occurrence), and on
`b'+8ftU' + (5).to_bytes(4,'little') + b'ved\xc4\xb0'` (the content decodes to
`"vedİ"`, whose Python lowercase `"vedi̇"` contains the token `'vedi'`, so the
occurrence is excluded). -/
theorem extract_text_filter_spec_witness :
    ([72, 101, 108, 108, 111, 32, 87, 111, 114, 108, 100] ∈ extract_text
      [43, 56, 102, 116, 85, 11, 0, 0, 0, 72, 101, 108, 108, 111, 32, 87, 111, 114, 108, 100]) ∧
    textOcc [43, 56, 102, 116, 85, 13, 0, 0, 0,
      115, 105, 101, 104, 101, 32, 115, 101, 105, 116, 101, 32, 53] 0 = Except.ok none ∧
    textOcc [43, 56, 102, 116, 85, 5, 0, 0, 0, 118, 101, 100, 196, 176] 0 =
      Except.ok none := by
  refine ⟨?_, ?_, ?_⟩
  · exact ((extract_text_filter_spec
      [43, 56, 102, 116, 85, 11, 0, 0, 0, 72, 101, 108, 108, 111, 32, 87, 111, 114, 108, 100]
      0 11 (by decide)).2 (by decide)).2 (by decide) (by decide) (by decide) |>.2 (by decide)
  · exact ((extract_text_filter_spec
      [43, 56, 102, 116, 85, 13, 0, 0, 0,
        115, 105, 101, 104, 101, 32, 115, 101, 105, 116, 101, 32, 53]
      0 13 (by decide)).2 (by decide)).1 (by decide)
  · exact ((extract_text_filter_spec
      [43, 56, 102, 116, 85, 5, 0, 0, 0, 118, 101, 100, 196, 176]
      0 5 (by decide)).2 (by decide)).1 (by decide)

/-- The power `2^k` as a rational, for `k : ℤ`. -/
def pow2 (k : ℤ) : ℚ :=
  if 0 ≤ k then ((2 ^ k.toNat : ℕ) : ℚ) else 1 / ((2 ^ (-k).toNat : ℕ) : ℚ)

/-- Floor `⌊q⌋` computed from the reduced fraction. -/
def ratFloor (q : ℚ) : ℤ :=
  Int.fdiv q.num (q.den : ℤ)

/-- Round to the nearest integer, ties to even — the rounding used both by IEEE-754
arithmetic and by Python's `round()`. -/
def roundHalfEven (q : ℚ) : ℤ :=
  let f := ratFloor q
  let r := q - (f : ℚ)
  if r < 1 / 2 then f
  else if 1 / 2 < r then f + 1
  else if f % 2 = 0 then f else f + 1

/-- Fueled `Nat.log2` (`⌊log₂ n⌋`, and 0 for `n ≤ 1`); `n` itself is enough fuel. -/
def natLog2Go : ℕ → ℕ → ℕ
  | 0, _ => 0
  | fuel + 1, n => if n ≤ 1 then 0 else natLog2Go fuel (n / 2) + 1

/-- Value `⌊log₂ n⌋` for `n ≥ 1`. -/
def natLog2 (n : ℕ) : ℕ :=
  natLog2Go n n

/-- Value `⌊log₂ a⌋` for a positive rational: `natLog2 num - natLog2 den` is off by at
most one, corrected by a single comparison. -/
def ilog2R (a : ℚ) : ℤ :=
  let d : ℤ := (natLog2 a.num.natAbs : ℤ) - (natLog2 a.den : ℤ)
  if pow2 d ≤ a then d else d - 1

/-- A Python float: an IEEE-754 binary64 value. -/
inductive PyFloat where
  | finite (q : ℚ)
  | inf
  | negInf
  | nan
deriving DecidableEq

/-- Round an exact rational to the nearest binary64 value (round to nearest, ties
to even), overflowing to an infinity.  Used for the result of float subtraction. -/
def roundB64 (q : ℚ) : PyFloat :=
  if q = 0 then .finite 0
  else
    let a := |q|
    let e := max (ilog2R a) (-1022)
    let m := roundHalfEven (a / pow2 (e - 52))
    let m2 := if m = 2 ^ 53 then (2 ^ 52 : ℤ) else m
    let e2 := if m = 2 ^ 53 then e + 1 else e
    if 1023 < e2 then (if q < 0 then .negInf else .inf)
    else .finite ((if q < 0 then -1 else 1) * (m2 : ℚ) * pow2 (e2 - 52))

/-- IEEE-754 (hence Python) float subtraction. -/
def fsub : PyFloat → PyFloat → PyFloat
  | .nan, _ => .nan
  | _, .nan => .nan
  | .inf, .inf => .nan
  | .inf, _ => .inf
  | .negInf, .negInf => .nan
  | .negInf, _ => .negInf
  | .finite _, .inf => .negInf
  | .finite _, .negInf => .inf
  | .finite a, .finite b => roundB64 (a - b)

/-- Little-endian byte list to natural number. -/
def leNat : List ℕ → ℕ
  | [] => 0
  | b :: rest => b + 256 * leNat rest

/-- Decode 8 little-endian bytes as an IEEE-754 binary64 value (`struct.unpack '<d'`). -/
def decodeF64 (bs : List ℕ) : PyFloat :=
  let u : ℕ := leNat bs
  let s : ℕ := u / 2 ^ 63
  let expBits : ℕ := (u / 2 ^ 52) % 2 ^ 11
  let frac : ℕ := u % 2 ^ 52
  if expBits = 2047 then
    if frac = 0 then (if s = 1 then .negInf else .inf) else .nan
  else
    let mag : ℚ :=
      if expBits = 0 then (frac : ℚ) * pow2 (-1074)
      else ((2 ^ 52 + frac : ℕ) : ℚ) * pow2 ((expBits : ℤ) - 1075)
    .finite (if s = 1 then -mag else mag)

/-- Python `round(x)` on a float: `none` models the `OverflowError`/`ValueError`
raised on an infinity or NaN (caught by the bare `except` in `extract_bounds`). -/
def pyRoundF : PyFloat → Option ℤ
  | .finite q => some (roundHalfEven q)
  | _ => none

/-- One extracted bounding box `{"width": w, "height": h, "x": x, "y": y}`; its
fields are exactly the dedup key `(w, h, round(x1), round(y1))`. -/
structure BBox where
  width : ℤ
  height : ℤ
  x : ℤ
  y : ℤ
deriving DecidableEq

/-- The marker `b'BphS'`. -/
def boundsMarker : List ℕ := [66, 112, 104, 83]

/-- Loop body of `extract_bounds` for one occurrence `pos` (the content of the
`try` block): `.error` models a raised exception (truncated unpack, or `round()`
on a non-finite value), `.ok none` an out-of-range candidate. -/
def boundsCand (data : List ℕ) (pos : ℕ) : Except Unit (Option BBox) :=
  if (pySlice data (pos + 4) (pos + 36)).length ≠ 32 then .error ()
  else
    match pyRoundF (fsub (decodeF64 (pySlice data (pos + 20) (pos + 28)))
        (decodeF64 (pySlice data (pos + 4) (pos + 12)))) with
    | none => .error ()
    | some w =>
      match pyRoundF (fsub (decodeF64 (pySlice data (pos + 28) (pos + 36)))
          (decodeF64 (pySlice data (pos + 12) (pos + 20)))) with
      | none => .error ()
      | some h =>
        if 0 < w ∧ w < 10000 ∧ 0 < h ∧ h < 10000 then
          match pyRoundF (decodeF64 (pySlice data (pos + 4) (pos + 12))),
              pyRoundF (decodeF64 (pySlice data (pos + 12) (pos + 20))) with
          | some x, some y => .ok (some ⟨w, h, x, y⟩)
          | _, _ => .error ()
        else .ok none

/-- The net contribution of one bounds occurrence after the `except: pass`. -/
def boundsCandOpt (data : List ℕ) (pos : ℕ) : Option BBox :=
  match boundsCand data pos with
  | .ok (some b) => some b
  | _ => none

/-- The `for pos in positions` loop of `extract_bounds` with its `try/except`,
threading the `seen` set and the `bounds` list. -/
def boundsLoop (data : List ℕ) : List ℕ → List BBox → List BBox → List BBox × List BBox
  | [], seen, bounds => (seen, bounds)
  | p :: ps, seen, bounds =>
    match boundsCand data p with
    | .ok (some b) =>
      if b ∈ seen then boundsLoop data ps seen bounds
      else boundsLoop data ps (b :: seen) (bounds ++ [b])
    | _ => boundsLoop data ps seen bounds

/-- The sort key `b["width"] * b["height"]`. -/
def areaOf (b : BBox) : ℤ :=
  b.width * b.height

/-- Stable insertion into a list sorted by descending area: the new element goes
after every element of at least its area, matching Python's stable
`sorted(..., reverse=True)`. -/
def insertDesc (b : BBox) : List BBox → List BBox
  | [] => [b]
  | c :: cs => if areaOf c < areaOf b then b :: c :: cs else c :: insertDesc b cs

/-- Models `sorted(bounds, key=lambda b: b["width"] * b["height"], reverse=True)`. -/
def sortDescArea (l : List BBox) : List BBox :=
  l.foldl (fun acc b => insertDesc b acc) []

/-- First-occurrence deduplication of a candidate list against an initial `seen`
set; the per-occurrence view of the `seen` logic of `extract_bounds`. -/
def dedupKF : List BBox → List BBox → List BBox
  | _, [] => []
  | seen, b :: bs => if b ∈ seen then dedupKF seen bs else b :: dedupKF (b :: seen) bs

/-- Models `extract_bounds(data)`: validated, deduplicated boxes after `BphS` markers,
sorted by descending area. -/
def extract_bounds (data : List ℕ) : List BBox :=
  sortDescArea (boundsLoop data (find_all data boundsMarker) [] []).2

theorem mem_insertDesc {b a : BBox} {l : List BBox} :
    a ∈ insertDesc b l ↔ a = b ∨ a ∈ l := by
  induction l with
  | nil => simp [insertDesc]
  | cons c cs ih =>
    rw [insertDesc]
    split
    · simp
    · simp only [List.mem_cons, ih]
      tauto

theorem perm_insertDesc (b : BBox) (l : List BBox) : (insertDesc b l).Perm (b :: l) := by
  induction l with
  | nil => exact List.Perm.refl _
  | cons c cs ih =>
    rw [insertDesc]
    split
    · exact List.Perm.refl _
    · exact (List.Perm.cons c ih).trans (List.Perm.swap b c cs)

theorem perm_sortDescArea_aux (l acc : List BBox) :
    (l.foldl (fun acc b => insertDesc b acc) acc).Perm (acc ++ l) := by
  induction l generalizing acc with
  | nil => simp
  | cons b bs ih =>
    rw [List.foldl_cons]
    refine (ih (insertDesc b acc)).trans ?_
    refine (List.Perm.append_right bs (perm_insertDesc b acc)).trans ?_
    exact List.perm_middle.symm

theorem perm_sortDescArea (l : List BBox) : (sortDescArea l).Perm l := by
  simpa using perm_sortDescArea_aux l []

theorem pairwise_insertDesc {b : BBox} {l : List BBox}
    (h : List.Pairwise (fun x y => areaOf y ≤ areaOf x) l) :
    List.Pairwise (fun x y => areaOf y ≤ areaOf x) (insertDesc b l) := by
  induction l with
  | nil => simp [insertDesc]
  | cons c cs ih =>
    rw [insertDesc]
    rcases h with - | ⟨hc, hcs⟩
    split
    · next hlt =>
      refine List.Pairwise.cons ?_ (List.Pairwise.cons hc hcs)
      intro z hz
      rcases List.mem_cons.mp hz with rfl | hz'
      · omega
      · have := hc z hz'
        omega
    · next hge =>
      refine List.Pairwise.cons ?_ (ih hcs)
      intro z hz
      rcases mem_insertDesc.mp hz with rfl | hz'
      · omega
      · exact hc z hz'

theorem pairwise_sortDescArea_aux (l acc : List BBox)
    (hacc : List.Pairwise (fun x y => areaOf y ≤ areaOf x) acc) :
    List.Pairwise (fun x y => areaOf y ≤ areaOf x)
      (l.foldl (fun acc b => insertDesc b acc) acc) := by
  induction l generalizing acc with
  | nil => exact hacc
  | cons b bs ih => exact ih _ (pairwise_insertDesc hacc)

theorem pairwise_sortDescArea (l : List BBox) :
    List.Pairwise (fun x y => areaOf y ≤ areaOf x) (sortDescArea l) :=
  pairwise_sortDescArea_aux l [] List.Pairwise.nil

theorem mem_dedupKF {a : BBox} {seen l : List BBox} (h : a ∈ dedupKF seen l) :
    a ∈ l ∧ a ∉ seen := by
  induction l generalizing seen with
  | nil => simp [dedupKF] at h
  | cons b bs ih =>
    rw [dedupKF] at h
    split at h
    · have := ih h
      exact ⟨List.mem_cons_of_mem b this.1, this.2⟩
    · next hnot =>
      rcases List.mem_cons.mp h with rfl | h'
      · exact ⟨List.mem_cons_self a bs, hnot⟩
      · have := ih h'
        refine ⟨List.mem_cons_of_mem b this.1, fun hseen => this.2 ?_⟩
        exact List.mem_cons_of_mem b hseen

theorem pairwise_ne_dedupKF (seen l : List BBox) :
    List.Pairwise (· ≠ ·) (dedupKF seen l) := by
  induction l generalizing seen with
  | nil => exact List.Pairwise.nil
  | cons b bs ih =>
    rw [dedupKF]
    split
    · exact ih seen
    · refine List.Pairwise.cons ?_ (ih (b :: seen))
      intro z hz
      have := (mem_dedupKF hz).2
      intro hbz
      exact this (hbz ▸ List.mem_cons_self b seen)

theorem boundsLoop_snd (data : List ℕ) (ps : List ℕ) (seen bounds : List BBox) :
    (boundsLoop data ps seen bounds).2 =
      bounds ++ dedupKF seen (ps.filterMap (boundsCandOpt data)) := by
  induction ps generalizing seen bounds with
  | nil => simp [boundsLoop, dedupKF]
  | cons p ps ih =>
    rw [boundsLoop, List.filterMap_cons]
    rcases hc : boundsCand data p with e | ob
    · simp only [boundsCandOpt, hc]
      exact ih seen bounds
    · rcases ob with - | b
      · simp only [boundsCandOpt, hc]
        exact ih seen bounds
      · simp only [boundsCandOpt, hc]
        rw [dedupKF]
        split
        · exact ih seen bounds
        · rw [ih (b :: seen) (bounds ++ [b]), List.append_assoc]
          rfl

theorem boundsCand_ok_some {data : List ℕ} {pos : ℕ} {b : BBox}
    (h : boundsCand data pos = Except.ok (some b)) :
    0 < b.width ∧ b.width < 10000 ∧ 0 < b.height ∧ b.height < 10000 := by
  rw [boundsCand] at h
  split at h
  · cases h
  · split at h
    · cases h
    · split at h
      · cases h
      · split at h
        · next hrange =>
          split at h
          · cases h
            exact ⟨hrange.1, hrange.2.1, hrange.2.2.1, hrange.2.2.2⟩
          · cases h
        · cases h

theorem mem_extract_bounds {data : List ℕ} {b : BBox} (h : b ∈ extract_bounds data) :
    ∃ pos ∈ find_all data boundsMarker, boundsCand data pos = Except.ok (some b) := by
  rw [extract_bounds] at h
  have h2 := (perm_sortDescArea _).mem_iff.mp h
  rw [boundsLoop_snd, List.nil_append] at h2
  obtain ⟨hmem, -⟩ := mem_dedupKF h2
  obtain ⟨pos, hpos, hcand⟩ := List.mem_filterMap.mp hmem
  rw [boundsCandOpt] at hcand
  rcases hc : boundsCand data pos with e | ob
  · rw [hc] at hcand; cases hcand
  · rcases ob with - | c
    · rw [hc] at hcand; cases hcand
    · rw [hc] at hcand
      cases hcand
      exact ⟨pos, hpos, hc⟩

/-- Claim C5: Every box returned by `extract_bounds` satisfies
`0 < width < 10000` and `0 < height < 10000`, and no two returned boxes agree on
the full tuple `(width, height, x, y)` (the dedup key). -/
theorem extract_bounds_valid (data : List ℕ) :
    (∀ b ∈ extract_bounds data,
      0 < b.width ∧ b.width < 10000 ∧ 0 < b.height ∧ b.height < 10000) ∧
    List.Pairwise (· ≠ ·) (extract_bounds data) := by
  constructor
  · intro b hb
    obtain ⟨pos, -, hc⟩ := mem_extract_bounds hb
    exact boundsCand_ok_some hc
  · rw [extract_bounds, boundsLoop_snd, List.nil_append]
    exact ((perm_sortDescArea _).pairwise_iff
      Ne.symm).mpr (pairwise_ne_dedupKF _ _)

/-- Witness for C5 on a buffer with one `BphS` box `(x1,y1,x2,y2) = (0,0,100,50)`:
the returned box has valid width 100 and height 50. -/
theorem extract_bounds_valid_witness :
    0 < (BBox.mk 100 50 0 0).width ∧ (BBox.mk 100 50 0 0).width < 10000 ∧
    0 < (BBox.mk 100 50 0 0).height ∧ (BBox.mk 100 50 0 0).height < 10000 := by
  exact (extract_bounds_valid
    [66, 112, 104, 83, 0, 0, 0, 0, 0, 0, 0, 0, 0, 0, 0, 0, 0, 0, 0, 0,
     0, 0, 0, 0, 0, 0, 89, 64, 0, 0, 0, 0, 0, 0, 73, 64]).1 ⟨100, 50, 0, 0⟩ (by decide)

/-- A parsed JSON value as produced by Python `json.loads`: objects keep insertion
order of keys, integers are exact, and fractional/exponent literals become floats. -/
inductive Json where
  | null
  | bool (b : Bool)
  | int (n : ℤ)
  | float (f : PyFloat)
  | str (s : List ℕ)
  | arr (elems : List Json)
  | obj (pairs : List (List ℕ × Json))

/-- JSON inter-token whitespace, `[ \t\n\r]`. -/
def jsonWs (c : ℕ) : Bool :=
  c == 32 || c == 9 || c == 10 || c == 13

/-- Skip JSON whitespace. -/
def skipWs (s : List ℕ) : List ℕ :=
  s.dropWhile jsonWs

/-- Hexadecimal digit value. -/
def hexDigit (c : ℕ) : Option ℕ :=
  if 48 ≤ c && c ≤ 57 then some (c - 48)
  else if 97 ≤ c && c ≤ 102 then some (c - 87)
  else if 65 ≤ c && c ≤ 70 then some (c - 55)
  else none

/-- Four hex digits of a `\uXXXX` escape. -/
def parseHex4 (s : List ℕ) : Option (ℕ × List ℕ) :=
  match s with
  | a :: b :: c :: d :: rest =>
    match hexDigit a, hexDigit b, hexDigit c, hexDigit d with
    | some ha, some hb, some hc, some hd => some (((ha * 16 + hb) * 16 + hc) * 16 + hd, rest)
    | _, _, _, _ => none
  | _ => none

/-- JSON string body after the opening quote: content and remaining input.  Follows
CPython: strict mode rejects raw control characters, `\uXXXX` escapes combine valid
surrogate pairs and keep lone surrogates. -/
def parseStrGo : ℕ → List ℕ → Option (List ℕ × List ℕ)
  | 0, _ => none
  | _, [] => none
  | fuel + 1, c :: rest =>
    if c = 34 then some ([], rest)
    else if c = 92 then
      match rest with
      | [] => none
      | e :: rest2 =>
        if e = 34 || e = 92 || e = 47 then
          (parseStrGo fuel rest2).map (fun p => (e :: p.1, p.2))
        else if e = 98 then (parseStrGo fuel rest2).map (fun p => (8 :: p.1, p.2))
        else if e = 102 then (parseStrGo fuel rest2).map (fun p => (12 :: p.1, p.2))
        else if e = 110 then (parseStrGo fuel rest2).map (fun p => (10 :: p.1, p.2))
        else if e = 114 then (parseStrGo fuel rest2).map (fun p => (13 :: p.1, p.2))
        else if e = 116 then (parseStrGo fuel rest2).map (fun p => (9 :: p.1, p.2))
        else if e = 117 then
          match parseHex4 rest2 with
          | none => none
          | some (cp, rest3) =>
            if 0xD800 ≤ cp && cp ≤ 0xDBFF then
              match rest3 with
              | 92 :: 117 :: rest4 =>
                match parseHex4 rest4 with
                | some (cp2, rest5) =>
                  if 0xDC00 ≤ cp2 && cp2 ≤ 0xDFFF then
                    (parseStrGo fuel rest5).map (fun p =>
                      ((0x10000 + (cp - 0xD800) * 0x400 + (cp2 - 0xDC00)) :: p.1, p.2))
                  else (parseStrGo fuel rest3).map (fun p => (cp :: p.1, p.2))
                | none => (parseStrGo fuel rest3).map (fun p => (cp :: p.1, p.2))
              | _ => (parseStrGo fuel rest3).map (fun p => (cp :: p.1, p.2))
            else (parseStrGo fuel rest3).map (fun p => (cp :: p.1, p.2))
        else none
    else if c < 32 then none
    else (parseStrGo fuel rest).map (fun p => (c :: p.1, p.2))

/-- The power `10^k` as a rational, for `k : ℤ`. -/
def pow10 (k : ℤ) : ℚ :=
  if 0 ≤ k then ((10 ^ k.toNat : ℕ) : ℚ) else 1 / ((10 ^ (-k).toNat : ℕ) : ℚ)

/-- Decimal digit test. -/
def isDigit (c : ℕ) : Bool :=
  48 ≤ c && c ≤ 57

/-- Value of a list of decimal digits (code points). -/
def digitsVal (ds : List ℕ) : ℕ :=
  ds.foldl (fun acc d => acc * 10 + (d - 48)) 0

/-- A JSON number literal: `-?(0|[1-9][0-9]*)(\.[0-9]+)?([eE][-+]?[0-9]+)?`.
An integer literal becomes a Python int (exact); a literal with a fraction or
exponent becomes a float, correctly rounded to binary64. -/
def parseNum (s : List ℕ) : Option (Json × List ℕ) :=
  let (neg, s1) : Bool × List ℕ := match s with
    | 45 :: r => (true, r)
    | _ => (false, s)
  let ipart : Option (List ℕ × List ℕ) := match s1 with
    | 48 :: r => some ([48], r)
    | d :: r => if 49 ≤ d && d ≤ 57 then some (d :: r.takeWhile isDigit, r.dropWhile isDigit)
                else none
    | [] => none
  match ipart with
  | none => none
  | some (ids, s2) =>
    let fpart : Option (List ℕ × List ℕ) := match s2 with
      | 46 :: r =>
        match r.takeWhile isDigit with
        | [] => none
        | fds => some (fds, r.dropWhile isDigit)
      | _ => some ([], s2)
    match fpart with
    | none => none
    | some (fds, s3) =>
      let epart : Option (Option (Bool × List ℕ) × List ℕ) := match s3 with
        | e :: r =>
          if e = 101 || e = 69 then
            let (eneg, r2) : Bool × List ℕ := match r with
              | 45 :: rr => (true, rr)
              | 43 :: rr => (false, rr)
              | _ => (false, r)
            match r2.takeWhile isDigit with
            | [] => none
            | eds => some (some (eneg, eds), r2.dropWhile isDigit)
          else some (none, s3)
        | [] => some (none, s3)
      match epart with
      | none => none
      | some (eo, s4) =>
        if fds = [] && eo = none then
          some (.int ((if neg then -1 else 1) * (digitsVal ids : ℤ)), s4)
        else
          let expVal : ℤ := match eo with
            | some (eneg, eds) => (if eneg then -1 else 1) * (digitsVal eds : ℤ)
            | none => 0
          let mant : ℤ := (if neg then -1 else 1) * (digitsVal (ids ++ fds) : ℤ)
          some (.float (roundB64 ((mant : ℚ) * pow10 (expVal - fds.length))), s4)

/-- Insert a key/value pair into an object under Python dict semantics: a duplicate
key keeps its original position and takes the new value. -/
def objInsert (k : List ℕ) (v : Json) : List (List ℕ × Json) → List (List ℕ × Json)
  | [] => [(k, v)]
  | (k2, v2) :: rest => if k2 = k then (k2, v) :: rest else (k2, v2) :: objInsert k v rest

mutual

/-- A JSON value; the input must already start at a non-whitespace character. -/
def parseValue : ℕ → List ℕ → Option (Json × List ℕ)
  | 0, _ => none
  | fuel + 1, s =>
    match s with
    | 110 :: 117 :: 108 :: 108 :: r => some (.null, r)
    | 116 :: 114 :: 117 :: 101 :: r => some (.bool true, r)
    | 102 :: 97 :: 108 :: 115 :: 101 :: r => some (.bool false, r)
    | 78 :: 97 :: 78 :: r => some (.float .nan, r)
    | 73 :: 110 :: 102 :: 105 :: 110 :: 105 :: 116 :: 121 :: r => some (.float .inf, r)
    | 45 :: 73 :: 110 :: 102 :: 105 :: 110 :: 105 :: 116 :: 121 :: r =>
      some (.float .negInf, r)
    | 123 :: r => parseObjFirst fuel (skipWs r)
    | 91 :: r => parseArrFirst fuel (skipWs r)
    | 34 :: r => (parseStrGo (r.length + 1) r).map (fun p => (.str p.1, p.2))
    | _ => parseNum s

/-- Object body right after `{` (whitespace skipped): empty object or members. -/
def parseObjFirst : ℕ → List ℕ → Option (Json × List ℕ)
  | 0, _ => none
  | fuel + 1, s =>
    match s with
    | 125 :: r => some (.obj [], r)
    | _ => parseObjRest fuel s []

/-- Object members, each a `"key" : value` followed by `,` or `}`. -/
def parseObjRest : ℕ → List ℕ → List (List ℕ × Json) → Option (Json × List ℕ)
  | 0, _, _ => none
  | fuel + 1, s, acc =>
    match s with
    | 34 :: r =>
      match parseStrGo (r.length + 1) r with
      | some (key, r2) =>
        match skipWs r2 with
        | 58 :: r3 =>
          match parseValue fuel (skipWs r3) with
          | some (v, r4) =>
            match skipWs r4 with
            | 44 :: r5 => parseObjRest fuel (skipWs r5) (objInsert key v acc)
            | 125 :: r5 => some (.obj (objInsert key v acc), r5)
            | _ => none
          | none => none
        | _ => none
      | none => none
    | _ => none

/-- Array body right after `[` (whitespace skipped): empty array or elements. -/
def parseArrFirst : ℕ → List ℕ → Option (Json × List ℕ)
  | 0, _ => none
  | fuel + 1, s =>
    match s with
    | 93 :: r => some (.arr [], r)
    | _ => parseArrRest fuel s []

/-- Array elements, each followed by `,` or `]`. -/
def parseArrRest : ℕ → List ℕ → List Json → Option (Json × List ℕ)
  | 0, _, _ => none
  | fuel + 1, s, acc =>
    match parseValue fuel s with
    | some (v, r) =>
      match skipWs r with
      | 44 :: r2 => parseArrRest fuel (skipWs r2) (acc ++ [v])
      | 93 :: r2 => some (.arr (acc ++ [v]), r2)
      | _ => none
    | none => none

end

/-- UTF-8 decoding with `errors='surrogatepass'`, the decode `json.loads` applies
to `bytes` input: like the strict decoder, but the three-byte CESU-8 encodings of
the surrogate range (`ED A0-BF 80-BF`, yielding U+D800..U+DFFF) are accepted;
`none` models the `UnicodeDecodeError` on any other invalid sequence. -/
def utf8SurrogatePassGo : ℕ → List ℕ → Option (List ℕ)
  | 0, _ => none
  | _, [] => some []
  | fuel + 1, b :: rest =>
    if b < 0x80 then (utf8SurrogatePassGo fuel rest).map (b :: ·)
    else if 0xC2 ≤ b && b ≤ 0xDF then
      match rest with
      | c1 :: rest1 =>
        if 0x80 ≤ c1 && c1 ≤ 0xBF then
          (utf8SurrogatePassGo fuel rest1).map (((b - 0xC0) * 64 + (c1 - 0x80)) :: ·)
        else none
      | [] => none
    else if 0xE0 ≤ b && b ≤ 0xEF then
      match rest with
      | c1 :: c2 :: rest2 =>
        if (if b == 0xE0 then 0xA0 ≤ c1 && c1 ≤ 0xBF
            else 0x80 ≤ c1 && c1 ≤ 0xBF) && (0x80 ≤ c2 && c2 ≤ 0xBF) then
          (utf8SurrogatePassGo fuel rest2).map
            ((((b - 0xE0) * 64 + (c1 - 0x80)) * 64 + (c2 - 0x80)) :: ·)
        else none
      | _ => none
    else if 0xF0 ≤ b && b ≤ 0xF4 then
      match rest with
      | c1 :: c2 :: c3 :: rest3 =>
        if (if b == 0xF0 then 0x90 ≤ c1 && c1 ≤ 0xBF
            else if b == 0xF4 then 0x80 ≤ c1 && c1 ≤ 0x8F
            else 0x80 ≤ c1 && c1 ≤ 0xBF) && (0x80 ≤ c2 && c2 ≤ 0xBF)
            && (0x80 ≤ c3 && c3 ≤ 0xBF) then
          (utf8SurrogatePassGo fuel rest3).map
            (((((b - 0xF0) * 64 + (c1 - 0x80)) * 64 + (c2 - 0x80)) * 64 + (c3 - 0x80)) :: ·)
        else none
      | _ => none
    else none

/-- The decode `bytes.decode('utf-8', 'surrogatepass')`. -/
def utf8DecodeSurrogatePass (s : List ℕ) : Option (List ℕ) :=
  utf8SurrogatePassGo (s.length + 1) s

/-- Python `json.loads` on a byte string: UTF-8 decode with `'surrogatepass'`
(`s.decode(detect_encoding(s), 'surrogatepass')`; the spans here never carry a BOM,
so the detected encoding is UTF-8), optional leading and trailing `[ \t\n\r]`
whitespace, one JSON value covering the whole input; `none` models any raised
`ValueError`/`UnicodeDecodeError` (caught by the bare `except`). -/
def jsonLoads (bytes : List ℕ) : Option Json :=
  match utf8DecodeSurrogatePass bytes with
  | none => none
  | some cps =>
    match parseValue (cps.length + 1) (skipWs cps) with
    | some (v, rest) => if skipWs rest = [] then some v else none
    | none => none

/-- The search prefix `b'{"document"'`. -/
def metaOpen : List ℕ := [123, 34, 100, 111, 99, 117, 109, 101, 110, 116, 34]

/-- The index `end = raw.find(b'}}', start) + 2`.  Python quirk: when `b'}}'` is absent,
`find` returns -1 and `end = 1`. -/
def metaEnd (raw : List ℕ) (start : ℕ) : ℕ :=
  match pyFind raw [125, 125] start with
  | some i => i + 2
  | none => 1

/-- Models `extract_metadata` over the raw file bytes (the function reads the file and
then operates on its content; the file read itself is elided). -/
def extract_metadata (raw : List ℕ) : Option Json :=
  match pyFind raw metaOpen 0 with
  | none => none
  | some start =>
    match jsonLoads (pySlice raw start (metaEnd raw start)) with
    | some j => some j
    | none => none

/-- The result dictionary assembled by `main` (the `result = {...}` literal). -/
structure Report where
  source : List ℕ
  metadata : Option Json
  layers : List (List ℕ)
  text_content : List (List ℕ)
  fonts : List (List ℕ)
  element_sizes : List BBox

/-- Models `result = {"source": ..., "metadata": ..., "layers": extract_layers(data),
"text_content": extract_text(data), "fonts": extract_fonts(data),
"element_sizes": extract_bounds(data)[:30]}`. -/
def assembleReport (source : List ℕ) (metadata : Option Json) (data : List ℕ) : Report :=
  { source := source
    metadata := metadata
    layers := extract_layers data
    text_content := extract_text data
    fonts := extract_fonts data
    element_sizes := (extract_bounds data).take 30 }

/-- The `--from-bin` branch of `main`: the binary is read directly and
`metadata = None`; no metadata lookup is performed on it. -/
def processFromBin (binData source : List ℕ) : Report :=
  assembleReport source none binData

/-- Claim C10: In `--from-bin` mode the report's metadata field is `none` for every
input binary — even one that contains a parseable `{"document"` metadata blob. -/
theorem from_bin_metadata_none (bin source : List ℕ) (j : Json)
    (_hmeta : extract_metadata bin = some j) :
    (processFromBin bin source).metadata = none :=
  rfl

/-- Witness for C10: a binary consisting of a valid `{"document"` blob still gets
`metadata = none` in `--from-bin` mode. -/
theorem from_bin_metadata_none_witness :
    (processFromBin [123, 34, 100, 111, 99, 117, 109, 101, 110, 116, 34, 58,
        123, 34, 97, 34, 58, 49, 125, 125, 116, 97, 105, 108] []).metadata = none :=
  from_bin_metadata_none _ []
    (.obj [([100, 111, 99, 117, 109, 101, 110, 116], .obj [([97], .int 1)])]) (by rfl)

/-- Claim C6: `extract_bounds` is sorted by area `width * height` in descending
order (areas are non-increasing along the list), and the report's `element_sizes`
field is that sequence truncated to its first 30 elements (hence at most 30, and
exactly the 30 largest by area when more survive). -/
theorem extract_bounds_sorted (data source : List ℕ) (md : Option Json) (i j : ℕ)
    (hij : i ≤ j) (hj : j < (extract_bounds data).length) :
    areaOf ((extract_bounds data).get ⟨j, hj⟩) ≤
      areaOf ((extract_bounds data).get ⟨i, Nat.lt_of_le_of_lt hij hj⟩) ∧
    (assembleReport source md data).element_sizes = (extract_bounds data).take 30 ∧
    (assembleReport source md data).element_sizes.length ≤ 30 := by
  refine ⟨?_, rfl, ?_⟩
  · have hp : List.Pairwise (fun x y => areaOf y ≤ areaOf x) (extract_bounds data) := by
      rw [extract_bounds]
      exact pairwise_sortDescArea _
    rcases Nat.eq_or_lt_of_le hij with rfl | hlt
    · exact le_refl _
    · exact List.pairwise_iff_get.mp hp ⟨i, _⟩ ⟨j, hj⟩ (Fin.mk_lt_mk.mpr hlt)
  · simp only [assembleReport, List.length_take]
    omega

/-- Witness for C6 on a buffer with three `BphS` boxes of areas 100, 50000, 3000
(in that buffer order): the result is ordered descending (the box at index 2 has
area at most that of the box at index 0), and `element_sizes` is the 30-truncation. -/
theorem extract_bounds_sorted_witness :
    areaOf ((extract_bounds
      [66, 112, 104, 83, 0, 0, 0, 0, 0, 0, 0, 0, 0, 0, 0, 0, 0, 0, 0, 0, 0, 0, 0, 0,
       0, 0, 36, 64, 0, 0, 0, 0, 0, 0, 36, 64,
       66, 112, 104, 83, 0, 0, 0, 0, 0, 0, 0, 0, 0, 0, 0, 0, 0, 0, 0, 0, 0, 0, 0, 0,
       0, 64, 111, 64, 0, 0, 0, 0, 0, 0, 105, 64,
       66, 112, 104, 83, 0, 0, 0, 0, 0, 0, 0, 0, 0, 0, 0, 0, 0, 0, 0, 0, 0, 0, 0, 0,
       0, 0, 73, 64, 0, 0, 0, 0, 0, 0, 78, 64]).get ⟨2, by decide⟩) ≤
      areaOf ((extract_bounds
      [66, 112, 104, 83, 0, 0, 0, 0, 0, 0, 0, 0, 0, 0, 0, 0, 0, 0, 0, 0, 0, 0, 0, 0,
       0, 0, 36, 64, 0, 0, 0, 0, 0, 0, 36, 64,
       66, 112, 104, 83, 0, 0, 0, 0, 0, 0, 0, 0, 0, 0, 0, 0, 0, 0, 0, 0, 0, 0, 0, 0,
       0, 64, 111, 64, 0, 0, 0, 0, 0, 0, 105, 64,
       66, 112, 104, 83, 0, 0, 0, 0, 0, 0, 0, 0, 0, 0, 0, 0, 0, 0, 0, 0, 0, 0, 0, 0,
       0, 0, 73, 64, 0, 0, 0, 0, 0, 0, 78, 64]).get ⟨0, by decide⟩) ∧
    (assembleReport [] none
      [66, 112, 104, 83, 0, 0, 0, 0, 0, 0, 0, 0, 0, 0, 0, 0, 0, 0, 0, 0, 0, 0, 0, 0,
       0, 0, 36, 64, 0, 0, 0, 0, 0, 0, 36, 64,
       66, 112, 104, 83, 0, 0, 0, 0, 0, 0, 0, 0, 0, 0, 0, 0, 0, 0, 0, 0, 0, 0, 0, 0,
       0, 64, 111, 64, 0, 0, 0, 0, 0, 0, 105, 64,
       66, 112, 104, 83, 0, 0, 0, 0, 0, 0, 0, 0, 0, 0, 0, 0, 0, 0, 0, 0, 0, 0, 0, 0,
       0, 0, 73, 64, 0, 0, 0, 0, 0, 0, 78, 64]).element_sizes =
      (extract_bounds
      [66, 112, 104, 83, 0, 0, 0, 0, 0, 0, 0, 0, 0, 0, 0, 0, 0, 0, 0, 0, 0, 0, 0, 0,
       0, 0, 36, 64, 0, 0, 0, 0, 0, 0, 36, 64,
       66, 112, 104, 83, 0, 0, 0, 0, 0, 0, 0, 0, 0, 0, 0, 0, 0, 0, 0, 0, 0, 0, 0, 0,
       0, 64, 111, 64, 0, 0, 0, 0, 0, 0, 105, 64,
       66, 112, 104, 83, 0, 0, 0, 0, 0, 0, 0, 0, 0, 0, 0, 0, 0, 0, 0, 0, 0, 0, 0, 0,
       0, 0, 73, 64, 0, 0, 0, 0, 0, 0, 78, 64]).take 30 := by
  have h := extract_bounds_sorted
    [66, 112, 104, 83, 0, 0, 0, 0, 0, 0, 0, 0, 0, 0, 0, 0, 0, 0, 0, 0, 0, 0, 0, 0,
     0, 0, 36, 64, 0, 0, 0, 0, 0, 0, 36, 64,
     66, 112, 104, 83, 0, 0, 0, 0, 0, 0, 0, 0, 0, 0, 0, 0, 0, 0, 0, 0, 0, 0, 0, 0,
     0, 64, 111, 64, 0, 0, 0, 0, 0, 0, 105, 64,
     66, 112, 104, 83, 0, 0, 0, 0, 0, 0, 0, 0, 0, 0, 0, 0, 0, 0, 0, 0, 0, 0, 0, 0,
     0, 0, 73, 64, 0, 0, 0, 0, 0, 0, 78, 64] [] none 0 2 (by decide) (by decide)
  exact ⟨h.1, h.2.1⟩

theorem filterMap_erase_of_none {α β : Type} [DecidableEq α] {f : α → Option β}
    {l : List α} {a : α} (h : f a = none) :
    (l.erase a).filterMap f = l.filterMap f := by
  induction l with
  | nil => rfl
  | cons x xs ih =>
    rw [List.erase_cons]
    split
    · next hxa =>
      rw [List.filterMap_cons]
      have hxa' : x = a := by simpa using hxa
      rw [hxa', h]
    · rw [List.filterMap_cons, List.filterMap_cons, ih]

/-- Claim C3: Per-occurrence failures (modelled as `.error` results of the `try`
bodies) are absorbed by the bare `except: pass`: each extractor's result equals
the aggregation of its per-occurrence contributions, and removing any occurrence
that contributes nothing (a failing or filtered occurrence) leaves the result
unchanged — so a failure skips only its own occurrence, and the extractors always
return a value. -/
theorem extractors_isolate_failures (data : List ℕ) :
    extract_text data =
      sortLexDedup ((find_all data textMarker).filterMap (textCandOpt data)) ∧
    extract_bounds data =
      sortDescArea (dedupKF [] ((find_all data boundsMarker).filterMap (boundsCandOpt data))) ∧
    (∀ p, textCandOpt data p = none →
      extract_text data =
        sortLexDedup (((find_all data textMarker).erase p).filterMap (textCandOpt data))) ∧
    (∀ p, boundsCandOpt data p = none →
      extract_bounds data =
        sortDescArea (dedupKF []
          (((find_all data boundsMarker).erase p).filterMap (boundsCandOpt data)))) := by
  have ht : extract_text data =
      sortLexDedup ((find_all data textMarker).filterMap (textCandOpt data)) := by
    rw [extract_text, textLoop_eq_filterMap]
  have hb : extract_bounds data =
      sortDescArea (dedupKF [] ((find_all data boundsMarker).filterMap (boundsCandOpt data))) := by
    rw [extract_bounds, boundsLoop_snd, List.nil_append]
  refine ⟨ht, hb, fun p hp => ?_, fun p hp => ?_⟩
  · rw [ht, filterMap_erase_of_none hp]
  · rw [hb, filterMap_erase_of_none hp]

/-- Witness for C3 on the buffer `b'+8ftUBphS'`: the text occurrence at offset 0
(length field out of range) and the bounds occurrence at offset 5 (truncated
unpack, a raised and caught `struct.error`) contribute nothing, and removing each
leaves its extractor's result unchanged. -/
theorem extractors_isolate_failures_witness :
    extract_text [43, 56, 102, 116, 85, 66, 112, 104, 83] =
      sortLexDedup (List.filterMap (textCandOpt [43, 56, 102, 116, 85, 66, 112, 104, 83])
        ((find_all [43, 56, 102, 116, 85, 66, 112, 104, 83] textMarker).erase 0)) ∧
    extract_bounds [43, 56, 102, 116, 85, 66, 112, 104, 83] =
      sortDescArea (dedupKF []
        (List.filterMap (boundsCandOpt [43, 56, 102, 116, 85, 66, 112, 104, 83])
          ((find_all [43, 56, 102, 116, 85, 66, 112, 104, 83] boundsMarker).erase 5))) := by
  have h := extractors_isolate_failures [43, 56, 102, 116, 85, 66, 112, 104, 83]
  exact ⟨h.2.2.1 0 (by decide), h.2.2.2 5 (by decide)⟩
